import Mathlib

/-!
# OCC::Result and OCC::Optional (src/common/result.h)

A shallow embedding of the two value holders of `result.h`.

* `Result<T, Error>` is a structure made of the anonymous union (which member
  is alive, and its value) and the separate flag `_isError`; every accessor is
  a function into `Except Fault _`, and the consuming accessors also return
  the state the object is left in.
* `Optional<T>` owns its payload through a `std::unique_ptr<T>`; it is
  embedded over an explicit program state with a heap of `T` objects, so that
  ownership transfer, deep copies and deallocation are all observable. The
  body of the copy assignment of `Optional` is ill-formed; it is embedded as
  the operation that no program can perform.
-/

namespace OCC

/-! ## Faults and payload types -/

/-- The ways an operation can fail to return. -/
inductive Fault
  /-- The fatal path of `ASSERT`: the process is aborted. -/
  | assertFailed
  /-- A read (or destruction) of a union member that is not the live one. -/
  | inactiveMember
  /-- A dereference of a null pointer: undefined behaviour. The marker records
  that the precondition of the dereference is violated; the language defines
  nothing of what the program does from there on, neither an abort nor a
  value. -/
  | nullDeref
  /-- A use of a heap address that holds no live object: undefined behaviour. -/
  | dangling
  /-- A use of a member function whose body is ill-formed: the program that
  contains the call does not compile, so the operation is never performed. -/
  | illFormed
deriving DecidableEq, Repr

/-- Modelled from the spec: the `ASSERT` macro of `asserts.h`, which is not part
of the sources at hand. The spec describes it as a fatal-check collaborator
that "given a boolean condition, either is a no-op (condition true) or
irrecoverably aborts the process with diagnostic context (condition false)". -/
def ASSERT (cond : Bool) : Except Fault Unit :=
  if cond then Except.ok () else Except.error Fault.assertFailed

/-- What the embedding needs to know of a payload type: the state `T(T&&)`
leaves its source in. The move constructor is taken to build an object equal to
the source's old value, and the copy constructor an object equal to the source,
which it leaves alone. -/
class Payload (T : Type) where
  /-- The moved-from state of an object that held the given value. -/
  movedFrom : T → T

/-- Moving an unsigned integer leaves the source as it was. -/
instance : Payload Nat where
  movedFrom := fun n => n

/-- Moving an `int` leaves the source as it was. -/
instance : Payload Int where
  movedFrom := fun n => n

/-- Moving a `std::vector` leaves the source empty. -/
instance {α : Type} : Payload (List α) where
  movedFrom := fun _ => []

/-- Moving a `std::string` leaves the source empty. -/
instance : Payload String where
  movedFrom := fun _ => ""

/-! ## Result -/

/-- The anonymous `union { T _result; Error _error; }`: at any time one member
is alive. -/
inductive Storage (T Error : Type)
  | _result (value : T)
  | _error (error : Error)
deriving DecidableEq, Repr

/-- The class `Result<T, Error>`: the union and the flag `_isError`. -/
structure Result (T Error : Type) where
  storage : Storage T Error
  _isError : Bool
deriving DecidableEq, Repr

/-- A call of a payload destructor, with the value of the destroyed object. -/
inductive DtorCall (T Error : Type)
  | T (value : T)
  | Error (error : Error)
deriving DecidableEq, Repr

namespace Storage

variable {T Error : Type}

/-- An access to the member `_result`. -/
def read_result : Storage T Error → Except Fault T
  | _result value => Except.ok value
  | _error _ => Except.error Fault.inactiveMember

/-- An access to the member `_error`. -/
def read_error : Storage T Error → Except Fault Error
  | _error error => Except.ok error
  | _result _ => Except.error Fault.inactiveMember

end Storage

namespace Result

variable {T Error : Type}

/-- The constructor `Result(T value) : _result(std::move(value)), _isError(false)`. -/
def ofValue (value : T) : Result T Error :=
  { storage := Storage._result value, _isError := false }

/-- The constructor `Result(Error error) : _error(std::move(error)), _isError(true)`. -/
def ofError (error : Error) : Result T Error :=
  { storage := Storage._error error, _isError := true }

/-- The conversion `explicit operator bool() const { return !_isError; }`. -/
def toBool (r : Result T Error) : Bool := !r._isError

/-- The accessor `const T &operator*() const &`: the assertion, then `_result`. -/
def deref (r : Result T Error) : Except Fault T :=
  match ASSERT (!r._isError) with
  | Except.error f => Except.error f
  | Except.ok () => r.storage.read_result

/-- The accessor `T operator*() &&`: the value moved out of `_result`, and the object after
the call. -/
def derefMove [Payload T] (r : Result T Error) : Except Fault (T × Result T Error) :=
  match ASSERT (!r._isError) with
  | Except.error f => Except.error f
  | Except.ok () =>
    match r.storage.read_result with
    | Except.error f => Except.error f
    | Except.ok value =>
      Except.ok (value, { r with storage := Storage._result (Payload.movedFrom value) })

/-- The accessor `const Error &error() const &`: the assertion, then `_error`. -/
def error (r : Result T Error) : Except Fault Error :=
  match ASSERT r._isError with
  | Except.error f => Except.error f
  | Except.ok () => r.storage.read_error

/-- The accessor `Error error() &&`: the error moved out of `_error`, and the object after
the call. -/
def errorMove [Payload Error] (r : Result T Error) : Except Fault (Error × Result T Error) :=
  match ASSERT r._isError with
  | Except.error f => Except.error f
  | Except.ok () =>
    match r.storage.read_error with
    | Except.error f => Except.error f
    | Except.ok err =>
      Except.ok (err, { r with storage := Storage._error (Payload.movedFrom err) })

/-- The destructor `~Result()`: the payload destructors it calls, in order. -/
def destroy (r : Result T Error) : Except Fault (List (DtorCall T Error)) :=
  if r._isError then
    match r.storage.read_error with
    | Except.error f => Except.error f
    | Except.ok err => Except.ok [DtorCall.Error err]
  else
    match r.storage.read_result with
    | Except.error f => Except.error f
    | Except.ok value => Except.ok [DtorCall.T value]

/-- The public operations of a `Result`, destruction apart. -/
inductive Op
  /-- The conversion `explicit operator bool() const`. -/
  | toBool
  /-- The accessor `const T &operator*() const &`. -/
  | deref
  /-- The accessor `T operator*() &&`. -/
  | derefMove
  /-- The accessor `const Error &error() const &`. -/
  | error
  /-- The accessor `Error error() &&`. -/
  | errorMove
deriving DecidableEq, Repr

/-- The object after one operation, or the fault that stopped the program. -/
def step [Payload T] [Payload Error] (r : Result T Error) : Op → Except Fault (Result T Error)
  | Op.toBool => Except.ok r
  | Op.deref =>
    match r.deref with
    | Except.error f => Except.error f
    | Except.ok _ => Except.ok r
  | Op.derefMove =>
    match r.derefMove with
    | Except.error f => Except.error f
    | Except.ok (_, r') => Except.ok r'
  | Op.error =>
    match r.error with
    | Except.error f => Except.error f
    | Except.ok _ => Except.ok r
  | Op.errorMove =>
    match r.errorMove with
    | Except.error f => Except.error f
    | Except.ok (_, r') => Except.ok r'

/-- The object after a sequence of operations, or the first fault. -/
def run [Payload T] [Payload Error] (r : Result T Error) : List Op → Except Fault (Result T Error)
  | [] => Except.ok r
  | op :: ops =>
    match r.step op with
    | Except.error f => Except.error f
    | Except.ok r' => run r' ops

/-- Whether an operation's precondition holds in the state. -/
def Op.allowed (r : Result T Error) : Op → Bool
  | Op.toBool => true
  | Op.deref => r.toBool
  | Op.derefMove => r.toBool
  | Op.error => !r.toBool
  | Op.errorMove => !r.toBool

/-- The objects a program can hold: built by one of the two constructors and
then used through the public operations. -/
inductive Constructed [Payload T] [Payload Error] : Result T Error → Prop
  | ofValue (value : T) : Constructed (Result.ofValue value)
  | ofError (error : Error) : Constructed (Result.ofError error)
  | step {r r' : Result T Error} (op : Op) :
      Constructed r → r.step op = Except.ok r' → Constructed r'

/-- Invariant I1: the flag names the live member of the union. -/
def Consistent (r : Result T Error) : Prop :=
  match r.storage with
  | Storage._result _ => r._isError = false
  | Storage._error _ => r._isError = true

/-- How many times `~T()` is called in a list of destructor calls. -/
def countT : List (DtorCall T Error) → Nat
  | [] => 0
  | DtorCall.T _ :: cs => countT cs + 1
  | DtorCall.Error _ :: cs => countT cs

/-- How many times `~Error()` is called in a list of destructor calls. -/
def countError : List (DtorCall T Error) → Nat
  | [] => 0
  | DtorCall.T _ :: cs => countError cs
  | DtorCall.Error _ :: cs => countError cs + 1

end Result

/-! ## Optional -/

/-- A `std::unique_ptr<T>`: the address of the object it owns, `0` for the null
pointer. -/
structure unique_ptr (T : Type) where
  ptr : Nat
deriving DecidableEq, Repr

/-- The class `Optional<T>`: its only member is `std::unique_ptr<T> _data`. -/
structure Optional (T : Type) where
  _data : unique_ptr T
deriving DecidableEq, Repr

/-- A function changed at one argument. -/
def update {α : Type} (f : Nat → α) (i : Nat) (a : α) : Nat → α :=
  fun j => if j = i then a else f j

/-- The state of a program that uses `Optional<T>` objects. -/
structure State (T : Type) where
  /-- The heap: the live `T` object at each address, if there is one. -/
  heap : Nat → Option T
  /-- How many allocations were made; the next one gets address `allocated + 1`. -/
  allocated : Nat
  /-- The values of the heap objects on which `~T()` ran, oldest first. -/
  destroyed : List T
  /-- The `Optional<T>` objects, each named by its identity (its address). -/
  object : Nat → Optional T

namespace State

variable {T : Type}

/-- The state a program starts in: an empty heap, every `Optional` empty. -/
def init : State T :=
  { heap := fun _ => none, allocated := 0, destroyed := [], object := fun _ => ⟨⟨0⟩⟩ }

/-- The pointer held by `_data` of the object `this`. -/
def ptr (s : State T) (this : Nat) : Nat := (s.object this)._data.ptr

/-- The member `_data` of the object `this` is set to hold `p`. -/
def setPtr (s : State T) (this : Nat) (p : Nat) : State T :=
  { s with object := update s.object this ⟨⟨p⟩⟩ }

/-- The expression `new T(value)`: a fresh address, and the state in which it
holds a `T` equal to `value`. -/
def alloc (s : State T) (value : T) : Nat × State T :=
  (s.allocated + 1,
    { s with heap := update s.heap (s.allocated + 1) (some value),
             allocated := s.allocated + 1 })

/-- The expression `delete p` for a non-null `p`: `~T()` runs on the object at
`p` and its storage is released. -/
def free (s : State T) (p : Nat) : Except Fault (State T) :=
  match s.heap p with
  | none => Except.error Fault.dangling
  | some value =>
    Except.ok { s with heap := update s.heap p none, destroyed := s.destroyed ++ [value] }

/-- A write through a `T *` or a `T &`: the object at `p` is changed by `f`. -/
def modify (s : State T) (p : Nat) (f : T → T) : Except Fault (State T) :=
  if p = 0 then Except.error Fault.nullDeref
  else
    match s.heap p with
    | none => Except.error Fault.dangling
    | some value => Except.ok { s with heap := update s.heap p (some (f value)) }

end State

namespace unique_ptr

variable {T : Type}

/-- The call `_data.reset(p)` on the object `this`, as the standard library
defines it: the old pointer is replaced by `p`, then deleted if it is not
null. -/
def reset (s : State T) (this : Nat) (p : Nat) : Except Fault (State T) :=
  let old := s.ptr this
  let s' := s.setPtr this p
  if old = 0 then Except.ok s' else s'.free old

/-- The call `_data.release()` on the object `this`: the pointer it held, and
the state in which it holds null. -/
def release (s : State T) (this : Nat) : Nat × State T :=
  (s.ptr this, s.setPtr this 0)

end unique_ptr

namespace Optional

variable {T : Type}

/-- The constructor `Optional()`: `_data` is default-constructed, null. -/
def ctor (s : State T) (this : Nat) : State T :=
  s.setPtr this 0

/-- The constructor `Optional(T &&value) : _data(std::make_unique<T>(std::move(value)))`.
The new heap object is move-constructed from `value`, so it holds `value`. -/
def ctorMove (s : State T) (this : Nat) (value : T) : State T :=
  let (p, s') := s.alloc value
  s'.setPtr this p

/-- The constructor `Optional(const T &value) : _data(std::make_unique<T>(value))`. -/
def ctorCopy (s : State T) (this : Nat) (value : T) : State T :=
  let (p, s') := s.alloc value
  s'.setPtr this p

/-- The conversion `explicit operator bool() const { return static_cast<bool>(_data); }`. -/
def toBool (s : State T) (this : Nat) : Bool :=
  decide (s.ptr this ≠ 0)

/-- The reference `*_data`: the address of the payload. On a null `_data` the
dereference is undefined behaviour, recorded as `Fault.nullDeref`. -/
def derefRef (s : State T) (this : Nat) : Except Fault Nat :=
  if s.ptr this = 0 then Except.error Fault.nullDeref else Except.ok (s.ptr this)

/-- The accessors `T &operator*() &` and `const T &operator*() const &`, both
`return *_data;`, followed by a read of the payload. -/
def deref (s : State T) (this : Nat) : Except Fault T :=
  match derefRef s this with
  | Except.error f => Except.error f
  | Except.ok p =>
    match s.heap p with
    | none => Except.error Fault.dangling
    | some value => Except.ok value

/-- The accessors `T *operator->()` and `const T *operator->() const`, both
`return _data.get();`. -/
def arrow (s : State T) (this : Nat) : Nat :=
  s.ptr this

/-- The expression `other ? std::make_unique<T>(*other) : std::unique_ptr<T>()`
of the copy operations: the pointer the temporary holds, and the state. -/
def copyOf (s : State T) (other : Nat) : Except Fault (Nat × State T) :=
  if toBool s other then
    match deref s other with
    | Except.error f => Except.error f
    | Except.ok value => Except.ok (s.alloc value)
  else Except.ok (0, s)

/-- The copy constructor `Optional(const Optional<T> &other)`: `_data` takes
over what the temporary holds. -/
def copyCtor (s : State T) (this other : Nat) : Except Fault (State T) :=
  match copyOf s other with
  | Except.error f => Except.error f
  | Except.ok (p, s') => Except.ok (s'.setPtr this p)

/-- The copy assignment `operator=(const Optional<T> &other)`. Its body is
`if (this != &other) { _data.reset(other ? std::make_unique<T>(*other) : std::unique_ptr<T>()); }`:
the argument of `reset` has type `std::unique_ptr<T>`, while the only overload
is `reset(pointer p = pointer())` and a `std::unique_ptr<T>` converts to no
raw pointer. The body is ill-formed, so the member cannot be instantiated: a
program that assigns an `Optional` to another, or to itself, does not compile,
whatever the objects hold and whatever the guard `this != &other` would
give. -/
def copyAssign (_s : State T) (_this _other : Nat) : Except Fault (State T) :=
  Except.error Fault.illFormed

/-- The move constructor `Optional(Optional<T> &&other) = default`: `_data` is
move-constructed from `other._data`, which is left null. -/
def moveCtor (s : State T) (this other : Nat) : State T :=
  let (p, s') := unique_ptr.release s other
  s'.setPtr this p

/-- The move assignment `operator=(Optional<T> &&) = default`: the move
assignment of `std::unique_ptr`, `reset(other._data.release())`. -/
def moveAssign (s : State T) (this other : Nat) : Except Fault (State T) :=
  let (p, s') := unique_ptr.release s other
  unique_ptr.reset s' this p

/-- The accessor `T operator*() &&`:
`auto value = T(std::move(*_data)); _data.reset(nullptr); return value;`.
The overload for `const &&` has the same body. -/
def consume [Payload T] (s : State T) (this : Nat) : Except Fault (T × State T) :=
  match deref s this with
  | Except.error f => Except.error f
  | Except.ok value =>
    match s.modify (s.ptr this) Payload.movedFrom with
    | Except.error f => Except.error f
    | Except.ok s' =>
      match unique_ptr.reset s' this 0 with
      | Except.error f => Except.error f
      | Except.ok s'' => Except.ok (value, s'')

/-- A write to the payload through the reference that `T &operator*() &`
returns: `*x = f(*x)`. -/
def mutateDeref (s : State T) (this : Nat) (f : T → T) : Except Fault (State T) :=
  match derefRef s this with
  | Except.error e => Except.error e
  | Except.ok p => s.modify p f

/-- A write to the payload through the pointer that `T *operator->()` returns. -/
def mutateArrow (s : State T) (this : Nat) (f : T → T) : Except Fault (State T) :=
  s.modify (arrow s this) f

/-- The implicit destructor `~Optional()`: `_data` is destroyed, which deletes
the payload if there is one. -/
def destroy (s : State T) (this : Nat) : Except Fault (State T) :=
  unique_ptr.reset s this 0

/-- The operations that change the state of a program using `Optional<T>`. -/
inductive Op (T : Type)
  | ctor (this : Nat)
  | ctorMove (this : Nat) (value : T)
  | ctorCopy (this : Nat) (value : T)
  | copyCtor (this other : Nat)
  | copyAssign (this other : Nat)
  | moveCtor (this other : Nat)
  | moveAssign (this other : Nat)
  | consume (this : Nat)
  | mutateDeref (this : Nat) (f : T → T)
  | mutateArrow (this : Nat) (f : T → T)
  | destroy (this : Nat)

/-- The state after one operation, or the fault that stopped the program. -/
def exec [Payload T] (s : State T) : Op T → Except Fault (State T)
  | Op.ctor this => Except.ok (ctor s this)
  | Op.ctorMove this value => Except.ok (ctorMove s this value)
  | Op.ctorCopy this value => Except.ok (ctorCopy s this value)
  | Op.copyCtor this other => copyCtor s this other
  | Op.copyAssign this other => copyAssign s this other
  | Op.moveCtor this other => Except.ok (moveCtor s this other)
  | Op.moveAssign this other => moveAssign s this other
  | Op.consume this =>
    match consume s this with
    | Except.error f => Except.error f
    | Except.ok (_, s') => Except.ok s'
  | Op.mutateDeref this f => mutateDeref s this f
  | Op.mutateArrow this f => mutateArrow s this f
  | Op.destroy this => destroy s this

/-- The states a program can be in: the initial one, and those that follow a
reachable state by an operation that returns. -/
inductive Reachable [Payload T] : State T → Prop
  | init : Reachable State.init
  | step {s s' : State T} (op : Op T) : Reachable s → exec s op = Except.ok s' → Reachable s'

/-- A way to write to the payload of an `Optional`: through `operator*` or
through `operator->`. -/
inductive Mutation (T : Type)
  | viaDeref (f : T → T)
  | viaArrow (f : T → T)

/-- The change a write makes to the payload. -/
def Mutation.apply : Mutation T → T → T
  | Mutation.viaDeref f => f
  | Mutation.viaArrow f => f

/-- The payload after a sequence of writes that started from `value`. -/
def applyAll : List (Mutation T) → T → T
  | [], value => value
  | m :: ms, value => applyAll ms (m.apply value)

/-- The state after one write to the payload of `this`. -/
def mutate (s : State T) (this : Nat) : Mutation T → Except Fault (State T)
  | Mutation.viaDeref f => mutateDeref s this f
  | Mutation.viaArrow f => mutateArrow s this f

/-- The state after a sequence of writes to the payload of `this`. -/
def mutateAll (s : State T) (this : Nat) : List (Mutation T) → Except Fault (State T)
  | [] => Except.ok s
  | m :: ms =>
    match mutate s this m with
    | Except.error f => Except.error f
    | Except.ok s' => mutateAll s' this ms

/-- A program state with one object: `Optional<string> x("hi")`, at identity 1. -/
def sampleString : State String :=
  ctorCopy State.init 1 "hi"

/-- A program state with two objects holding vectors: object 1 holds `[1, 2, 3]`
and object 2 holds `[7]`. -/
def sampleVectors : State (List Nat) :=
  ctorMove (ctorCopy State.init 1 [1, 2, 3]) 2 [7]

end Optional

namespace State

variable {T : Type}

/-- The ownership discipline of the heap: addresses not yet handed out hold
nothing, a non-null `_data` points to a live object, and no two `Optional`
objects hold the same non-null pointer. -/
structure WF (s : State T) : Prop where
  fresh : ∀ p, s.allocated < p → s.heap p = none
  null : s.heap 0 = none
  live : ∀ x, s.ptr x ≠ 0 → s.heap (s.ptr x) ≠ none
  unique : ∀ x y, s.ptr x ≠ 0 → s.ptr x = s.ptr y → x = y

/-- A pointer that may be handed to an `Optional`: null, or the address of a
live object that no `Optional` owns. -/
def Unowned (s : State T) (p : Nat) : Prop :=
  p = 0 ∨ (s.heap p ≠ none ∧ ∀ y, s.ptr y ≠ p)

end State

/-! ## Result: theorems -/

namespace Result

variable {T Error : Type}

theorem step_isError [Payload T] [Payload Error] {r r' : Result T Error} {op : Op}
    (h : r.step op = Except.ok r') : r'._isError = r._isError := by
  cases op <;> simp only [step] at h
  · cases h; rfl
  · cases hd : r.deref <;> simp only [hd] at h <;> cases h; rfl
  · unfold derefMove at h
    cases ha : ASSERT (!r._isError) <;> simp only [ha] at h
    · cases h
    · cases hr : r.storage.read_result <;> simp only [hr] at h <;> cases h; rfl
  · cases hd : r.error <;> simp only [hd] at h <;> cases h; rfl
  · unfold errorMove at h
    cases ha : ASSERT r._isError <;> simp only [ha] at h
    · cases h
    · cases hr : r.storage.read_error <;> simp only [hr] at h <;> cases h; rfl

theorem step_consistent [Payload T] [Payload Error] {r r' : Result T Error} {op : Op}
    (hc : r.Consistent) (h : r.step op = Except.ok r') : r'.Consistent := by
  obtain ⟨st, b⟩ := r
  cases st <;> cases b <;> simp [Consistent] at hc <;>
    cases op <;>
    simp [step, deref, derefMove, error, errorMove, ASSERT, Storage.read_result,
      Storage.read_error] at h <;>
    subst h <;> simp [Consistent]

theorem Constructed.consistent [Payload T] [Payload Error] {r : Result T Error}
    (h : Constructed r) : r.Consistent := by
  induction h with
  | ofValue value => exact (rfl : false = false)
  | ofError error => exact (rfl : true = true)
  | step op _ hs ih => exact step_consistent ih hs

theorem run_isError [Payload T] [Payload Error] (ops : List Op) :
    ∀ (r r' : Result T Error), r.run ops = Except.ok r' → r'._isError = r._isError := by
  induction ops with
  | nil => intro r r' h; simp only [run] at h; cases h; rfl
  | cons op ops ih =>
    intro r r' h
    simp only [run] at h
    cases hs : r.step op with
    | error f => rw [hs] at h; cases h
    | ok r1 =>
      rw [hs] at h
      rw [ih r1 r' h, step_isError hs]

theorem step_allowed [Payload T] [Payload Error] {r : Result T Error} {op : Op}
    (hc : r.Consistent) (ha : Op.allowed r op = true) : ∃ r', r.step op = Except.ok r' := by
  obtain ⟨st, b⟩ := r
  cases st <;> cases b <;> simp [Consistent] at hc <;>
    cases op <;>
    simp [Op.allowed, toBool] at ha <;>
    simp [step, deref, derefMove, error, errorMove, ASSERT, Storage.read_result,
      Storage.read_error]

theorem allowed_step [Payload T] [Payload Error] {r r' : Result T Error} {op : Op}
    (h : r.step op = Except.ok r') (op' : Op) : Op.allowed r' op' = Op.allowed r op' := by
  have := step_isError h
  cases op' <;> simp [Op.allowed, toBool, this]

theorem run_allowed [Payload T] [Payload Error] (ops : List Op) :
    ∀ (r : Result T Error), r.Consistent → (∀ op ∈ ops, Op.allowed r op = true) →
      ∃ r', r.run ops = Except.ok r' := by
  induction ops with
  | nil => intro r _ _; exact ⟨r, rfl⟩
  | cons op ops ih =>
    intro r hc ha
    obtain ⟨r1, h1⟩ := step_allowed hc (ha op (List.mem_cons_self _ _))
    have hc1 := step_consistent hc h1
    obtain ⟨r2, h2⟩ := ih r1 hc1 (fun op' hm => by
      rw [allowed_step h1]; exact ha op' (List.mem_cons_of_mem _ hm))
    exact ⟨r2, by simp only [run, h1, h2]⟩

/-- C1: a Result constructed from a success value `value` is in the success
state: its boolean conversion is true, the non-consuming `operator*` returns
`value`, and the consuming `operator*` returns `value` (leaving the moved-from
payload behind, still tagged as a success). -/
theorem ofValue_success [Payload T] (value : T) :
    (ofValue value : Result T Error).toBool = true ∧
    (ofValue value : Result T Error).deref = Except.ok value ∧
    (ofValue value : Result T Error).derefMove =
      Except.ok (value, { storage := Storage._result (Payload.movedFrom value),
                          _isError := false }) := by
  refine ⟨rfl, rfl, rfl⟩

/-- C2: a Result constructed from an error value `err` is in the error state:
its boolean conversion is false, the non-consuming `error()` returns `err`, and
the consuming `error()` returns `err`. -/
theorem ofError_failure [Payload Error] (err : Error) :
    (ofError err : Result T Error).toBool = false ∧
    (ofError err : Result T Error).error = Except.ok err ∧
    (ofError err : Result T Error).errorMove =
      Except.ok (err, { storage := Storage._error (Payload.movedFrom err),
                        _isError := true }) := by
  refine ⟨rfl, rfl, rfl⟩

/-- C3 (P2, fatal misuse): on every Result in the error state both forms of
`operator*` end in the fatal path of the assertion and return no value, and on
every Result in the success state both forms of `error()` do. -/
theorem wrong_accessor_fatal [Payload T] [Payload Error] (r : Result T Error) :
    (r.toBool = false →
      r.deref = Except.error Fault.assertFailed ∧
      r.derefMove = Except.error Fault.assertFailed) ∧
    (r.toBool = true →
      r.error = Except.error Fault.assertFailed ∧
      r.errorMove = Except.error Fault.assertFailed) := by
  obtain ⟨st, b⟩ := r
  cases b <;> simp [toBool, deref, derefMove, error, errorMove, ASSERT]

/-- Witness for C3 on the two Results of the spec's scenarios. -/
theorem wrong_accessor_fatal_witness :
    ((ofError "not found" : Result Int String).deref = Except.error Fault.assertFailed ∧
      (ofError "not found" : Result Int String).derefMove = Except.error Fault.assertFailed) ∧
    ((ofValue 42 : Result Int String).error = Except.error Fault.assertFailed ∧
      (ofValue 42 : Result Int String).errorMove = Except.error Fault.assertFailed) :=
  ⟨(wrong_accessor_fatal (ofError "not found" : Result Int String)).1 rfl,
   (wrong_accessor_fatal (ofValue 42 : Result Int String)).2 rfl⟩

/-- C4 (P1, exclusivity): on every constructed Result, `operator*` is defined
exactly when the boolean conversion is true, `error()` is defined exactly when
it is false, and one of the two is defined while the other fails its
assertion. -/
theorem accessors_exclusive [Payload T] [Payload Error] (r : Result T Error)
    (h : Constructed r) :
    (r.deref.isOk = true ↔ r.toBool = true) ∧
    (r.error.isOk = true ↔ r.toBool = false) ∧
    ((r.deref.isOk = true ∧ r.error = Except.error Fault.assertFailed) ∨
     (r.error.isOk = true ∧ r.deref = Except.error Fault.assertFailed)) := by
  have hc := h.consistent
  obtain ⟨st, b⟩ := r
  cases st <;> cases b <;> simp [Consistent] at hc <;>
    simp [toBool, deref, error, ASSERT, Storage.read_result, Storage.read_error,
      Except.isOk, Except.toBool]

/-- Witness for C4: a Result built from 42 and then consumed. -/
theorem accessors_exclusive_witness :
    (((⟨Storage._result 42, false⟩ : Result Int String).deref.isOk = true ↔
        (⟨Storage._result 42, false⟩ : Result Int String).toBool = true) ∧
     ((⟨Storage._result 42, false⟩ : Result Int String).error.isOk = true ↔
        (⟨Storage._result 42, false⟩ : Result Int String).toBool = false) ∧
     (((⟨Storage._result 42, false⟩ : Result Int String).deref.isOk = true ∧
        (⟨Storage._result 42, false⟩ : Result Int String).error
          = Except.error Fault.assertFailed) ∨
      ((⟨Storage._result 42, false⟩ : Result Int String).error.isOk = true ∧
        (⟨Storage._result 42, false⟩ : Result Int String).deref
          = Except.error Fault.assertFailed))) :=
  accessors_exclusive _ (Constructed.step Op.derefMove (Constructed.ofValue 42) rfl)

/-- C5 (invariant I2): whatever sequence of public operations is applied to a
Result, the boolean conversion of the object it ends in equals that of the
object it started from; and on a constructed Result every sequence of
operations whose assertions hold in it does run to its end. The consuming
accessors neither re-tag nor empty the Result. -/
theorem run_toBool [Payload T] [Payload Error] (r : Result T Error) (ops : List Op) :
    (∀ r', r.run ops = Except.ok r' → r'.toBool = r.toBool) ∧
    (Constructed r → (∀ op ∈ ops, Op.allowed r op = true) →
      ∃ r', r.run ops = Except.ok r' ∧ r'.toBool = r.toBool) := by
  have key : ∀ r', r.run ops = Except.ok r' → r'.toBool = r.toBool := by
    intro r' h
    simp only [toBool, run_isError ops r r' h]
  refine ⟨key, fun hc ha => ?_⟩
  obtain ⟨r', h⟩ := run_allowed ops r hc.consistent ha
  exact ⟨r', h, key r' h⟩

/-- Witness for C5: a Result built from 42, read and consumed several times. -/
theorem run_toBool_witness :
    ((ofValue 42 : Result Int String).run
        [Op.derefMove, Op.toBool, Op.deref, Op.derefMove]
      = Except.ok ⟨Storage._result 42, false⟩) ∧
    (⟨Storage._result 42, false⟩ : Result Int String).toBool
      = (ofValue 42 : Result Int String).toBool ∧
    (∃ r', (ofError "not found" : Result Int String).run [Op.errorMove, Op.error, Op.errorMove]
        = Except.ok r' ∧ r'.toBool = (ofError "not found" : Result Int String).toBool) :=
  ⟨rfl,
   (run_toBool (ofValue 42 : Result Int String)
      [Op.derefMove, Op.toBool, Op.deref, Op.derefMove]).1 _ rfl,
   (run_toBool (ofError "not found" : Result Int String)
      [Op.errorMove, Op.error, Op.errorMove]).2 (Constructed.ofError _) (by decide)⟩

/-- C6 (P7, destructor correctness): destroying a constructed Result in the
success state calls the destructor of `T` on the stored value once and never
the destructor of `Error`; destroying one in the error state calls the
destructor of `Error` on the stored error once and never the destructor of
`T`. -/
theorem destroy_active_only [Payload T] [Payload Error] (r : Result T Error)
    (h : Constructed r) :
    (r.toBool = true →
      ∃ value, r.storage = Storage._result value ∧
        r.destroy = Except.ok [DtorCall.T value] ∧
        countT [(DtorCall.T value : DtorCall T Error)] = 1 ∧
        countError [(DtorCall.T value : DtorCall T Error)] = 0) ∧
    (r.toBool = false →
      ∃ err, r.storage = Storage._error err ∧
        r.destroy = Except.ok [DtorCall.Error err] ∧
        countError [(DtorCall.Error err : DtorCall T Error)] = 1 ∧
        countT [(DtorCall.Error err : DtorCall T Error)] = 0) := by
  have hc := h.consistent
  obtain ⟨st, b⟩ := r
  cases st <;> cases b <;> simp [Consistent] at hc <;>
    simp [toBool, destroy, Storage.read_result, Storage.read_error, countT, countError]

/-- Witness for C6: a Result built from 42, and one built from an error and
then consumed, whose stored error is the moved-from string. -/
theorem destroy_active_only_witness :
    (∃ value, (ofValue 42 : Result Int String).storage = Storage._result value ∧
        (ofValue 42 : Result Int String).destroy = Except.ok [DtorCall.T value] ∧
        countT [(DtorCall.T value : DtorCall Int String)] = 1 ∧
        countError [(DtorCall.T value : DtorCall Int String)] = 0) ∧
    (∃ err, (⟨Storage._error "", true⟩ : Result Int String).storage = Storage._error err ∧
        (⟨Storage._error "", true⟩ : Result Int String).destroy
          = Except.ok [DtorCall.Error err] ∧
        countError [(DtorCall.Error err : DtorCall Int String)] = 1 ∧
        countT [(DtorCall.Error err : DtorCall Int String)] = 0) :=
  ⟨(destroy_active_only (ofValue 42 : Result Int String) (Constructed.ofValue 42)).1 rfl,
   (destroy_active_only (⟨Storage._error "", true⟩ : Result Int String)
      (Constructed.step Op.errorMove (Constructed.ofError "not found") rfl)).2 rfl⟩

end Result

/-! ## Optional: the ownership discipline is kept by every operation -/

section Basics

variable {T : Type}

@[simp] theorem update_same {α : Type} (f : Nat → α) (i : Nat) (a : α) :
    update f i a i = a := by
  simp [update]

theorem update_other {α : Type} (f : Nat → α) {i j : Nat} (a : α) (h : j ≠ i) :
    update f i a j = f j := by
  simp [update, h]

@[simp] theorem ptr_setPtr_same (s : State T) (x p : Nat) : (s.setPtr x p).ptr x = p := by
  simp [State.setPtr, State.ptr]

theorem ptr_setPtr_other (s : State T) {x y : Nat} (p : Nat) (h : y ≠ x) :
    (s.setPtr x p).ptr y = s.ptr y := by
  simp [State.setPtr, State.ptr, update, h]

@[simp] theorem heap_setPtr (s : State T) (x p : Nat) : (s.setPtr x p).heap = s.heap := rfl

@[simp] theorem allocated_setPtr (s : State T) (x p : Nat) :
    (s.setPtr x p).allocated = s.allocated := rfl

@[simp] theorem destroyed_setPtr (s : State T) (x p : Nat) :
    (s.setPtr x p).destroyed = s.destroyed := rfl

theorem wf_init : (State.init : State T).WF :=
  ⟨fun _ _ => rfl, rfl, fun _ h => absurd rfl h, fun _ _ h => absurd rfl h⟩

/-- A live address was handed out by the allocator. -/
theorem le_allocated_of_live {s : State T} (h : s.WF) {p : Nat} (hp : s.heap p ≠ none) :
    p ≤ s.allocated := by
  by_contra hlt
  exact hp (h.fresh p (by omega))

/-- Storing a null or unowned pointer in an object keeps the discipline. -/
theorem wf_setPtr {s : State T} (h : s.WF) (x : Nat) {p : Nat} (hp : s.Unowned p) :
    (s.setPtr x p).WF := by
  refine ⟨h.fresh, h.null, ?_, ?_⟩
  · intro y hy
    by_cases hyx : y = x
    · subst hyx
      rw [ptr_setPtr_same] at hy ⊢
      rcases hp with h0 | ⟨hl, _⟩
      · exact absurd h0 hy
      · exact hl
    · rw [ptr_setPtr_other s p hyx] at hy ⊢
      exact h.live y hy
  · intro y z hy hyz
    by_cases hyx : y = x <;> by_cases hzx : z = x
    · rw [hyx, hzx]
    · subst hyx
      rw [ptr_setPtr_same] at hy hyz
      rw [ptr_setPtr_other s p hzx] at hyz
      rcases hp with h0 | ⟨_, hu⟩
      · exact absurd h0 hy
      · exact absurd hyz.symm (hu z)
    · subst hzx
      rw [ptr_setPtr_same] at hyz
      rw [ptr_setPtr_other s p hyx] at hy hyz
      rcases hp with h0 | ⟨_, hu⟩
      · exact absurd (hyz.trans h0) hy
      · exact absurd hyz (hu y)
    · rw [ptr_setPtr_other s p hyx] at hy hyz
      rw [ptr_setPtr_other s p hzx] at hyz
      exact h.unique y z hy hyz

/-- After an object let go of its pointer, nobody owns that pointer. -/
theorem unowned_released {s : State T} (h : s.WF) (x : Nat) :
    (s.setPtr x 0).Unowned (s.ptr x) := by
  by_cases h0 : s.ptr x = 0
  · exact Or.inl h0
  · refine Or.inr ⟨h.live x h0, fun y hy => ?_⟩
    by_cases hyx : y = x
    · subst hyx
      rw [ptr_setPtr_same] at hy
      exact h0 hy.symm
    · rw [ptr_setPtr_other s 0 hyx] at hy
      exact hyx (h.unique y x (by rw [hy]; exact h0) hy)

/-- An allocation keeps the discipline, and nobody owns the new object yet. -/
theorem wf_alloc {s : State T} (h : s.WF) (value : T) :
    (s.alloc value).2.WF ∧ (s.alloc value).2.Unowned (s.alloc value).1 := by
  have hlive : ∀ x, s.ptr x ≠ 0 → s.ptr x ≠ s.allocated + 1 := by
    intro x hx he
    have := le_allocated_of_live h (h.live x hx)
    omega
  refine ⟨⟨?_, ?_, ?_, h.unique⟩, Or.inr ⟨?_, ?_⟩⟩
  · intro p hp
    simp only [State.alloc] at hp ⊢
    rw [update_other _ _ (by omega)]
    exact h.fresh p (by omega)
  · simp only [State.alloc]
    rw [update_other _ _ (by omega)]
    exact h.null
  · intro x hx
    have hx' : s.ptr x ≠ 0 := hx
    show update s.heap (s.allocated + 1) (some value) (s.ptr x) ≠ none
    rw [update_other _ _ (hlive x hx')]
    exact h.live x hx'
  · simp [State.alloc]
  · intro y hy
    have hy' : s.ptr y = s.allocated + 1 := hy
    exact hlive y (by omega) hy'

/-- Deleting a live object that nobody owns returns and keeps the discipline. -/
theorem wf_free {s : State T} (h : s.WF) {q : Nat} (hl : s.heap q ≠ none)
    (hu : ∀ y, s.ptr y ≠ q) : ∃ s', s.free q = Except.ok s' ∧ s'.WF := by
  cases hq : s.heap q with
  | none => exact absurd hq hl
  | some value =>
    refine ⟨{ s with heap := update s.heap q none, destroyed := s.destroyed ++ [value] },
      by simp only [State.free, hq], ⟨?_, ?_, ?_, h.unique⟩⟩
    · intro p hp
      show update s.heap q none p = none
      by_cases hpq : p = q
      · rw [hpq, update_same]
      · rw [update_other _ _ hpq]; exact h.fresh p hp
    · show update s.heap q none 0 = none
      by_cases hpq : 0 = q
      · rw [← hpq, update_same]
      · rw [update_other _ _ hpq]; exact h.null
    · intro x hx
      have hx' : s.ptr x ≠ 0 := hx
      show update s.heap q none (s.ptr x) ≠ none
      rw [update_other _ _ (hu x)]
      exact h.live x hx'

/-- The call `reset(p)` with a null or unowned `p` returns and keeps the
discipline. -/
theorem wf_reset {s : State T} (h : s.WF) (x : Nat) {p : Nat} (hp : s.Unowned p) :
    ∃ s', unique_ptr.reset s x p = Except.ok s' ∧ s'.WF := by
  have hw := wf_setPtr h x hp
  by_cases h0 : s.ptr x = 0
  · exact ⟨_, by simp only [unique_ptr.reset, h0, if_true], hw⟩
  · have hne : s.ptr x ≠ p := by
      rcases hp with hp0 | ⟨_, hu⟩
      · rw [hp0]; exact h0
      · exact hu x
    obtain ⟨s', hs', hwf⟩ := wf_free hw (q := s.ptr x) (h.live x h0) (fun y hy => by
      by_cases hyx : y = x
      · subst hyx
        rw [ptr_setPtr_same] at hy
        exact hne hy.symm
      · rw [ptr_setPtr_other s p hyx] at hy
        exact hyx (h.unique y x (by rw [hy]; exact h0) hy))
    exact ⟨s', by simp only [unique_ptr.reset, h0, if_false]; exact hs', hwf⟩

/-- A write to a payload keeps the discipline. -/
theorem wf_modify {s s' : State T} (h : s.WF) {p : Nat} {f : T → T}
    (hm : s.modify p f = Except.ok s') : s'.WF := by
  unfold State.modify at hm
  by_cases h0 : p = 0
  · simp [h0] at hm
  · simp only [h0, if_false] at hm
    cases hq : s.heap p with
    | none => simp [hq] at hm
    | some value =>
      simp only [hq] at hm
      cases hm
      refine ⟨?_, ?_, ?_, h.unique⟩
      · intro q hq'
        have hq' : s.allocated < q := hq'
        show update s.heap p (some (f value)) q = none
        have : p ≤ s.allocated := le_allocated_of_live h (by rw [hq]; simp)
        rw [update_other _ _ (by omega)]
        exact h.fresh q hq'
      · show update s.heap p (some (f value)) 0 = none
        rw [update_other _ _ (Ne.symm h0)]
        exact h.null
      · intro x hx
        have hx' : s.ptr x ≠ 0 := hx
        show update s.heap p (some (f value)) (s.ptr x) ≠ none
        by_cases hxp : s.ptr x = p
        · rw [hxp, update_same]; simp
        · rw [update_other _ _ hxp]; exact h.live x hx'

end Basics

section Discipline

variable {T : Type}

theorem wf_of_reset {s s' : State T} (h : s.WF) {x p : Nat} (hp : s.Unowned p)
    (hr : unique_ptr.reset s x p = Except.ok s') : s'.WF := by
  obtain ⟨s1, h1, hw⟩ := wf_reset h x hp
  rw [h1] at hr
  cases hr
  exact hw

/-- The temporary of the copy operations holds a null or unowned pointer. -/
theorem wf_copyOf {s s' : State T} (h : s.WF) {other p : Nat}
    (hc : Optional.copyOf s other = Except.ok (p, s')) : s'.WF ∧ s'.Unowned p := by
  unfold Optional.copyOf at hc
  by_cases hb : Optional.toBool s other = true
  · simp only [hb, if_true] at hc
    cases hd : Optional.deref s other with
    | error f => simp [hd] at hc
    | ok value =>
      simp only [hd] at hc
      have := wf_alloc h value
      cases hc
      exact this
  · simp only [hb] at hc
    cases hc
    exact ⟨h, Or.inl rfl⟩

theorem wf_exec [Payload T] {s s' : State T} (h : s.WF) (op : Optional.Op T)
    (he : Optional.exec s op = Except.ok s') : s'.WF := by
  cases op with
  | ctor this =>
    cases he
    exact wf_setPtr h this (Or.inl rfl)
  | ctorMove this value =>
    cases he
    exact wf_setPtr (wf_alloc h value).1 this (wf_alloc h value).2
  | ctorCopy this value =>
    cases he
    exact wf_setPtr (wf_alloc h value).1 this (wf_alloc h value).2
  | copyCtor this other =>
    simp only [Optional.exec, Optional.copyCtor] at he
    cases hc : Optional.copyOf s other with
    | error f => simp [hc] at he
    | ok r =>
      obtain ⟨p, s1⟩ := r
      simp only [hc] at he
      cases he
      exact wf_setPtr (wf_copyOf h hc).1 this (wf_copyOf h hc).2
  | copyAssign this other =>
    simp only [Optional.exec, Optional.copyAssign] at he
    cases he
  | moveCtor this other =>
    cases he
    exact wf_setPtr (wf_setPtr h other (Or.inl rfl)) this (unowned_released h other)
  | moveAssign this other =>
    exact wf_of_reset (wf_setPtr h other (Or.inl rfl)) (unowned_released h other) he
  | consume this =>
    simp only [Optional.exec, Optional.consume] at he
    cases hd : Optional.deref s this with
    | error f => simp [hd] at he
    | ok value =>
      simp only [hd] at he
      cases hm : s.modify (s.ptr this) Payload.movedFrom with
      | error f => simp [hm] at he
      | ok s1 =>
        simp only [hm] at he
        cases hr : unique_ptr.reset s1 this 0 with
        | error f => simp [hr] at he
        | ok s2 =>
          simp only [hr] at he
          cases he
          exact wf_of_reset (wf_modify h hm) (Or.inl rfl) hr
  | mutateDeref this f =>
    simp only [Optional.exec, Optional.mutateDeref] at he
    cases hd : Optional.derefRef s this with
    | error e => simp [hd] at he
    | ok p =>
      simp only [hd] at he
      exact wf_modify h he
  | mutateArrow this f =>
    exact wf_modify h he
  | destroy this =>
    exact wf_of_reset h (Or.inl rfl) he

/-- Every reachable state keeps the ownership discipline. -/
theorem wf_of_reachable [Payload T] {s : State T} (h : Optional.Reachable s) : s.WF := by
  induction h with
  | init => exact wf_init
  | step op _ he ih => exact wf_exec ih op he

end Discipline

/-! ## Optional: what the operations do -/

section Effects

variable {T : Type}

theorem deref_eq_ok_iff (s : State T) (x : Nat) (v : T) :
    Optional.deref s x = Except.ok v ↔ s.ptr x ≠ 0 ∧ s.heap (s.ptr x) = some v := by
  unfold Optional.deref Optional.derefRef
  by_cases h0 : s.ptr x = 0
  · simp [h0]
  · simp only [h0, if_false]
    cases hq : s.heap (s.ptr x) <;> simp [h0]

theorem toBool_eq_true_iff (s : State T) (x : Nat) :
    Optional.toBool s x = true ↔ s.ptr x ≠ 0 := by
  simp [Optional.toBool]

theorem toBool_eq_false_iff (s : State T) (x : Nat) :
    Optional.toBool s x = false ↔ s.ptr x = 0 := by
  simp [Optional.toBool]

/-- What `reset(p)` does on an object whose pointer is null or live: it
returns, the object now holds `p`, the other objects hold what they held, and
only the object's old payload left the heap. -/
theorem reset_spec (s : State T) (x p : Nat)
    (hl : s.ptr x ≠ 0 → s.heap (s.ptr x) ≠ none) :
    ∃ s', unique_ptr.reset s x p = Except.ok s' ∧
      s'.ptr x = p ∧ (∀ y, y ≠ x → s'.ptr y = s.ptr y) ∧
      (∀ q, q ≠ s.ptr x → s'.heap q = s.heap q) ∧
      s'.allocated = s.allocated := by
  by_cases h0 : s.ptr x = 0
  · refine ⟨s.setPtr x p, by simp only [unique_ptr.reset, h0, if_true], ptr_setPtr_same s x p,
      fun y hy => ptr_setPtr_other s p hy, fun _ _ => rfl, rfl⟩
  · cases hq : s.heap (s.ptr x) with
    | none => exact absurd hq (hl h0)
    | some w =>
      refine ⟨{ s.setPtr x p with heap := update s.heap (s.ptr x) none,
                                   destroyed := s.destroyed ++ [w] }, ?_,
        ptr_setPtr_same s x p, fun y hy => ptr_setPtr_other s p hy,
        fun q hq' => update_other _ _ hq', rfl⟩
      simp only [unique_ptr.reset, h0, if_false, State.free, heap_setPtr, hq,
        destroyed_setPtr]

/-- What a sequence of writes through `b` does when `b` holds a payload: it
returns, no object changes its pointer, the payload of `b` is the result of the
writes, and the rest of the heap is as it was. -/
theorem mutateAll_spec (b : Nat) (ms : List (Optional.Mutation T)) :
    ∀ (s : State T) (w : T), s.ptr b ≠ 0 → s.heap (s.ptr b) = some w →
      ∃ s', Optional.mutateAll s b ms = Except.ok s' ∧
        (∀ y, s'.ptr y = s.ptr y) ∧
        s'.heap (s.ptr b) = some (Optional.applyAll ms w) ∧
        (∀ q, q ≠ s.ptr b → s'.heap q = s.heap q) := by
  induction ms with
  | nil => intro s w _ hw; exact ⟨s, rfl, fun _ => rfl, hw, fun _ _ => rfl⟩
  | cons m ms ih =>
    intro s w h0 hw
    have h1 : Optional.mutate s b m
        = Except.ok { s with heap := update s.heap (s.ptr b) (some (m.apply w)) } := by
      cases m <;>
        simp [Optional.mutate, Optional.mutateDeref, Optional.mutateArrow, Optional.derefRef,
          Optional.arrow, State.modify, h0, hw, Optional.Mutation.apply]
    obtain ⟨s', hs', hp, hb, hq⟩ :=
      ih { s with heap := update s.heap (s.ptr b) (some (m.apply w)) } (m.apply w) h0
        (update_same _ _ _)
    refine ⟨s', by simp only [Optional.mutateAll, h1]; exact hs', hp, hb, fun q hqb => ?_⟩
    rw [hq q hqb]
    exact update_other _ _ hqb

/-- Two present objects with different pointers: sequences of writes through
the one return, change its payload, and leave the payload of the other. -/
theorem writes_stay_local (s : State T) (a b : Nat) (v w : T)
    (ha : s.ptr a ≠ 0) (hb : s.ptr b ≠ 0) (hne : s.ptr a ≠ s.ptr b)
    (hva : s.heap (s.ptr a) = some v) (hvb : s.heap (s.ptr b) = some w)
    (ms : List (Optional.Mutation T)) :
    ∃ s', Optional.mutateAll s b ms = Except.ok s' ∧
      Optional.deref s' b = Except.ok (Optional.applyAll ms w) ∧
      Optional.deref s' a = Except.ok v := by
  obtain ⟨s', hs', hp, hpb, hq⟩ := mutateAll_spec b ms s w hb hvb
  refine ⟨s', hs', (deref_eq_ok_iff _ _ _).2 ⟨by rw [hp]; exact hb, by rw [hp]; exact hpb⟩,
    (deref_eq_ok_iff _ _ _).2 ⟨by rw [hp]; exact ha, ?_⟩⟩
  rw [hp, hq _ hne]
  exact hva

/-- The temporary of the copy operations, when the source is present: a new
heap object equal to the payload of the source. -/
theorem copyOf_present (s : State T) (a : Nat) (v : T) (ha : Optional.deref s a = Except.ok v) :
    Optional.copyOf s a = Except.ok (s.alloc v) := by
  have h0 := ((deref_eq_ok_iff s a v).1 ha).1
  simp only [Optional.copyOf, (toBool_eq_true_iff s a).2 h0, if_true, ha]

end Effects

/-! ## Optional: theorems -/

namespace Optional

variable {T : Type}

/-- C7: a default-constructed Optional is empty (its boolean conversion is
false), and an Optional constructed from a value, by copy or by move, is
present (its boolean conversion is true) and `operator*` returns that value. -/
theorem construct_presence (s : State T) (this : Nat) (value : T) :
    toBool (ctor s this) this = false ∧
    (toBool (ctorCopy s this value) this = true ∧
      deref (ctorCopy s this value) this = Except.ok value) ∧
    (toBool (ctorMove s this value) this = true ∧
      deref (ctorMove s this value) this = Except.ok value) := by
  refine ⟨?_, ⟨?_, ?_⟩, ⟨?_, ?_⟩⟩
  · simp [toBool_eq_false_iff, ctor]
  · simp [toBool_eq_true_iff, ctorCopy, State.alloc]
  · simp [deref_eq_ok_iff, ctorCopy, State.alloc]
  · simp [toBool_eq_true_iff, ctorMove, State.alloc]
  · simp [deref_eq_ok_iff, ctorMove, State.alloc]

/-- C8: on a present Optional holding `value`, the consuming `operator*`
returns `value` and leaves the container empty: its boolean conversion is false
afterwards. -/
theorem consume_empties [Payload T] (s : State T) (this : Nat) (value : T)
    (h : deref s this = Except.ok value) :
    ∃ s', consume s this = Except.ok (value, s') ∧ toBool s' this = false := by
  obtain ⟨h0, hv⟩ := (deref_eq_ok_iff s this value).1 h
  have hm : s.modify (s.ptr this) Payload.movedFrom
      = Except.ok { s with heap := update s.heap (s.ptr this)
                                     (some (Payload.movedFrom value)) } := by
    simp [State.modify, h0, hv]
  obtain ⟨s', hr, hp, _, _, _⟩ :=
    reset_spec { s with heap := update s.heap (s.ptr this) (some (Payload.movedFrom value)) }
      this 0 (fun _ => by
        show update s.heap (s.ptr this) (some (Payload.movedFrom value)) (s.ptr this) ≠ none
        rw [update_same]; simp)
  refine ⟨s', ?_, (toBool_eq_false_iff s' this).2 hp⟩
  simp only [consume, h, hm, hr]

/-- Witness for C8: `Optional<string>` constructed from "hi", then consumed. -/
theorem consume_empties_witness :
    deref sampleString 1 = Except.ok "hi" ∧
    ∃ s', consume sampleString 1 = Except.ok ("hi", s') ∧ toBool s' 1 = false :=
  ⟨rfl, consume_empties sampleString 1 "hi" rfl⟩

/-- C9 (P3, move drains source): in a reachable state where `a` is present and
holds `v`, for every other object `b`, whatever it holds: after
move-constructing `b` from `a`, and also after move-assigning `a` to `b`, `b`
is present and holds `v`, and `a` is empty. -/
theorem move_drains_source [Payload T] (s : State T) (a b : Nat) (v : T)
    (hs : Reachable s) (hab : b ≠ a) (ha : deref s a = Except.ok v) :
    (toBool (moveCtor s b a) b = true ∧
      deref (moveCtor s b a) b = Except.ok v ∧
      toBool (moveCtor s b a) a = false) ∧
    (∃ s', moveAssign s b a = Except.ok s' ∧
      toBool s' b = true ∧ deref s' b = Except.ok v ∧ toBool s' a = false) := by
  have hw := wf_of_reachable hs
  obtain ⟨h0, hv⟩ := (deref_eq_ok_iff s a v).1 ha
  have hba : a ≠ b := Ne.symm hab
  constructor
  · have hb : (moveCtor s b a).ptr b = s.ptr a := by
      simp [moveCtor, unique_ptr.release]
    have hsrc : (moveCtor s b a).ptr a = 0 := by
      simp only [moveCtor, unique_ptr.release]
      rw [ptr_setPtr_other _ _ hba, ptr_setPtr_same]
    refine ⟨(toBool_eq_true_iff _ _).2 (by rw [hb]; exact h0),
      (deref_eq_ok_iff _ _ _).2 ⟨by rw [hb]; exact h0, ?_⟩,
      (toBool_eq_false_iff _ _).2 hsrc⟩
    rw [hb]
    exact hv
  · have hw1 : (s.setPtr a 0).WF := wf_setPtr hw a (Or.inl rfl)
    have hpb : (s.setPtr a 0).ptr b = s.ptr b := ptr_setPtr_other s 0 hab
    obtain ⟨s', hr, hp, hothers, hheap, _⟩ :=
      reset_spec (s.setPtr a 0) b (s.ptr a) (hw1.live b)
    have hne : s.ptr a ≠ (s.setPtr a 0).ptr b := by
      rw [hpb]
      intro he
      exact hba (hw.unique a b h0 he)
    have hsrc : s'.ptr a = 0 := by
      rw [hothers a hba, ptr_setPtr_same]
    refine ⟨s', hr, (toBool_eq_true_iff _ _).2 (by rw [hp]; exact h0),
      (deref_eq_ok_iff _ _ _).2 ⟨by rw [hp]; exact h0, ?_⟩,
      (toBool_eq_false_iff _ _).2 hsrc⟩
    rw [hp, hheap _ hne]
    exact hv

/-- Witness for C9: object 1 holds `[1, 2, 3]` and is moved into object 2,
which held `[7]`, and into a new object 3. -/
theorem move_drains_source_witness :
    deref sampleVectors 1 = Except.ok [1, 2, 3] ∧
    (toBool (moveCtor sampleVectors 3 1) 3 = true ∧
      deref (moveCtor sampleVectors 3 1) 3 = Except.ok [1, 2, 3] ∧
      toBool (moveCtor sampleVectors 3 1) 1 = false) ∧
    (∃ s', moveAssign sampleVectors 2 1 = Except.ok s' ∧
      toBool s' 2 = true ∧ deref s' 2 = Except.ok [1, 2, 3] ∧ toBool s' 1 = false) :=
  ⟨rfl,
   (move_drains_source sampleVectors 1 3 [1, 2, 3]
      (Reachable.step (Op.ctorMove 2 [7])
        (Reachable.step (Op.ctorCopy 1 [1, 2, 3]) Reachable.init rfl) rfl)
      (by decide) rfl).1,
   (move_drains_source sampleVectors 1 2 [1, 2, 3]
      (Reachable.step (Op.ctorMove 2 [7])
        (Reachable.step (Op.ctorCopy 1 [1, 2, 3]) Reachable.init rfl) rfl)
      (by decide) rfl).2⟩

end Optional

namespace Optional

variable {T : Type}

/-- The copy constructor makes an independent copy: in a reachable state where
`a` is present and holds `v`, copy-constructing another object `b` from `a`
returns, both are present and hold `v`, and every sequence of writes to the
payload reached through `b` returns, changes the payload of `b`, and leaves the
payload reached through `a` equal to `v`. -/
theorem copyCtor_independent [Payload T] (s : State T) (a b : Nat) (v : T)
    (hs : Reachable s) (hab : b ≠ a) (ha : deref s a = Except.ok v) :
    ∃ s', copyCtor s b a = Except.ok s' ∧
      toBool s' a = true ∧ toBool s' b = true ∧
      deref s' a = Except.ok v ∧ deref s' b = Except.ok v ∧
      ∀ ms : List (Mutation T), ∃ s'', mutateAll s' b ms = Except.ok s'' ∧
        deref s'' b = Except.ok (applyAll ms v) ∧ deref s'' a = Except.ok v := by
  have hw := wf_of_reachable hs
  obtain ⟨h0, hv⟩ := (deref_eq_ok_iff s a v).1 ha
  have hba : a ≠ b := Ne.symm hab
  have hle : s.ptr a ≤ s.allocated := le_allocated_of_live hw (by rw [hv]; simp)
  have hfresh : s.ptr a ≠ s.allocated + 1 := by omega
  have hc := copyOf_present s a v ha
  have hpa : ((s.alloc v).2.setPtr b (s.alloc v).1).ptr a = s.ptr a :=
    ptr_setPtr_other _ _ hba
  have hpb : ((s.alloc v).2.setPtr b (s.alloc v).1).ptr b = s.allocated + 1 :=
    ptr_setPtr_same _ _ _
  have hha : ((s.alloc v).2.setPtr b (s.alloc v).1).heap (s.ptr a) = some v := by
    show update s.heap (s.allocated + 1) (some v) (s.ptr a) = some v
    rw [update_other _ _ hfresh]
    exact hv
  have hhb : ((s.alloc v).2.setPtr b (s.alloc v).1).heap (s.allocated + 1) = some v :=
    update_same _ _ _
  have ha' : ((s.alloc v).2.setPtr b (s.alloc v).1).ptr a ≠ 0 := by rw [hpa]; exact h0
  have hb' : ((s.alloc v).2.setPtr b (s.alloc v).1).ptr b ≠ 0 := by rw [hpb]; omega
  refine ⟨(s.alloc v).2.setPtr b (s.alloc v).1, by simp only [copyCtor, hc],
    (toBool_eq_true_iff _ _).2 ha', (toBool_eq_true_iff _ _).2 hb',
    (deref_eq_ok_iff _ _ _).2 ⟨ha', by rw [hpa]; exact hha⟩,
    (deref_eq_ok_iff _ _ _).2 ⟨hb', by rw [hpb]; exact hhb⟩, fun ms => ?_⟩
  exact writes_stay_local _ a b v v ha' hb' (by rw [hpa, hpb]; exact hfresh)
    (by rw [hpa]; exact hha) (by rw [hpb]; exact hhb) ms

/-- The copy assignment is performed by no program: whatever the state and the
two objects, its body does not compile. -/
theorem copyAssign_ill_formed (s : State T) (this other : Nat) :
    copyAssign s this other = Except.error Fault.illFormed :=
  rfl

/-- C10 (P4, copy independence), where the code falls short of it. Object 1
holds `[1, 2, 3]`. Copy-constructing object 3 from it does what the claim says:
both hold `[1, 2, 3]`, and after a write through the copy the original still
holds `[1, 2, 3]`. Copy-assigning object 1 to object 2 does not: the body of
`operator=` is ill-formed, so the assignment yields no state at all. -/
theorem copy_independent_assign_fails :
    deref sampleVectors 1 = Except.ok [1, 2, 3] ∧
    (∃ s', copyCtor sampleVectors 3 1 = Except.ok s' ∧
      deref s' 1 = Except.ok [1, 2, 3] ∧ deref s' 3 = Except.ok [1, 2, 3] ∧
      ∃ s'', mutateAll s' 3 [Mutation.viaDeref (fun xs => xs ++ [4])] = Except.ok s'' ∧
        deref s'' 3 = Except.ok [1, 2, 3, 4] ∧ deref s'' 1 = Except.ok [1, 2, 3]) ∧
    copyAssign sampleVectors 2 1 = Except.error Fault.illFormed ∧
    (∀ s', copyAssign sampleVectors 2 1 ≠ Except.ok s') := by
  have hr : Reachable sampleVectors :=
    Reachable.step (Op.ctorMove 2 [7])
      (Reachable.step (Op.ctorCopy 1 [1, 2, 3]) Reachable.init rfl) rfl
  obtain ⟨s1, h1, _, _, hda, hdb, hm1⟩ :=
    copyCtor_independent sampleVectors 1 3 [1, 2, 3] hr (by decide) rfl
  obtain ⟨t1, ht1, hb1, ha1⟩ := hm1 [Mutation.viaDeref (fun xs => xs ++ [4])]
  refine ⟨rfl, ⟨s1, h1, hda, hdb, t1, ht1, hb1, ha1⟩, rfl, fun s' h => ?_⟩
  rw [copyAssign_ill_formed] at h
  cases h

end Optional

/-! ## Optional: the copy constructor, seen from the source and from the target -/

section Copies

variable {T : Type}

theorem deref_null (s : State T) (x : Nat) (h : s.ptr x = 0) :
    Optional.deref s x = Except.error Fault.nullDeref := by
  simp [Optional.deref, Optional.derefRef, h]

theorem deref_of_heap (s : State T) (x : Nat) (v : T) (h0 : s.ptr x ≠ 0)
    (hv : s.heap (s.ptr x) = some v) : Optional.deref s x = Except.ok v :=
  (deref_eq_ok_iff s x v).2 ⟨h0, hv⟩

theorem toBool_of_ptr_eq {s s' : State T} {x y : Nat} (h : s'.ptr x = s.ptr y) :
    Optional.toBool s' x = Optional.toBool s y := by
  simp [Optional.toBool, h]

/-- In a disciplined state an object is empty or holds a live payload. -/
theorem empty_or_present {s : State T} (hw : s.WF) (x : Nat) :
    s.ptr x = 0 ∨ (s.ptr x ≠ 0 ∧ ∃ v, s.heap (s.ptr x) = some v) := by
  by_cases h0 : s.ptr x = 0
  · exact Or.inl h0
  · right
    refine ⟨h0, ?_⟩
    cases hq : s.heap (s.ptr x) with
    | none => exact absurd hq (hw.live x h0)
    | some v => exact ⟨v, rfl⟩

theorem copyOf_empty (s : State T) (o : Nat) (h0 : s.ptr o = 0) :
    Optional.copyOf s o = Except.ok (0, s) := by
  simp [Optional.copyOf, Optional.toBool, h0]

/-- The copy constructor returns, leaves the source as it was, puts the target
in the state of the source, and destroys nothing. -/
theorem copyCtor_spec {s : State T} (hw : s.WF) {c o : Nat} (hne : c ≠ o) :
    ∃ s', Optional.copyCtor s c o = Except.ok s' ∧
      Optional.toBool s' o = Optional.toBool s o ∧
      Optional.deref s' o = Optional.deref s o ∧
      Optional.toBool s' c = Optional.toBool s o ∧
      Optional.deref s' c = Optional.deref s o ∧
      s'.destroyed = s.destroyed := by
  have hoc : o ≠ c := Ne.symm hne
  rcases empty_or_present hw o with h0 | ⟨h0, v, hv⟩
  · have hpo : (s.setPtr c 0).ptr o = s.ptr o := ptr_setPtr_other s 0 hoc
    have hpc : (s.setPtr c 0).ptr c = s.ptr o := by rw [ptr_setPtr_same, h0]
    refine ⟨s.setPtr c 0, by simp only [Optional.copyCtor, copyOf_empty s o h0],
      toBool_of_ptr_eq hpo, ?_, toBool_of_ptr_eq hpc, ?_, rfl⟩
    · rw [deref_null s o h0, deref_null _ o (by rw [hpo]; exact h0)]
    · rw [deref_null s o h0, deref_null _ c (by rw [hpc]; exact h0)]
  · have hd : Optional.deref s o = Except.ok v := deref_of_heap s o v h0 hv
    have hle : s.ptr o ≤ s.allocated := le_allocated_of_live hw (by rw [hv]; simp)
    have hpo : ((s.alloc v).2.setPtr c (s.alloc v).1).ptr o = s.ptr o :=
      ptr_setPtr_other _ _ hoc
    have hpc : ((s.alloc v).2.setPtr c (s.alloc v).1).ptr c = s.allocated + 1 :=
      ptr_setPtr_same _ _ _
    have hho : ((s.alloc v).2.setPtr c (s.alloc v).1).heap (s.ptr o) = some v := by
      show update s.heap (s.allocated + 1) (some v) (s.ptr o) = some v
      rw [update_other _ _ (by omega)]
      exact hv
    have hhc : ((s.alloc v).2.setPtr c (s.alloc v).1).heap (s.allocated + 1) = some v :=
      update_same _ _ _
    refine ⟨(s.alloc v).2.setPtr c (s.alloc v).1,
      by simp only [Optional.copyCtor, copyOf_present s o v hd],
      toBool_of_ptr_eq hpo, ?_, ?_, ?_, rfl⟩
    · rw [hd]
      exact deref_of_heap _ o v (by rw [hpo]; exact h0) (by rw [hpo]; exact hho)
    · rw [(toBool_eq_true_iff s o).2 h0]
      exact (toBool_eq_true_iff _ c).2 (by rw [hpc]; omega)
    · rw [hd]
      exact deref_of_heap _ c v (by rw [hpc]; omega) (by rw [hpc]; exact hhc)

end Copies

namespace Optional

variable {T : Type}

/-- C11, where the code falls short of it. Object 2 holds `[7]`, object 1 holds
`[1, 2, 3]` and object 5 is empty. Copy construction from either source
returns, with an empty and with a present result; the copy assignment of either
source to object 2 yields no state, because the body of `operator=` is
ill-formed, so it does not have the semantics of copy construction. -/
theorem copyAssign_not_as_copyCtor :
    toBool sampleVectors 2 = true ∧ toBool sampleVectors 5 = false ∧
    (∃ s2, copyCtor sampleVectors 3 5 = Except.ok s2 ∧ toBool s2 3 = false) ∧
    (∃ s2, copyCtor sampleVectors 3 1 = Except.ok s2 ∧ deref s2 3 = Except.ok [1, 2, 3]) ∧
    copyAssign sampleVectors 2 5 = Except.error Fault.illFormed ∧
    copyAssign sampleVectors 2 1 = Except.error Fault.illFormed :=
  ⟨rfl, rfl, ⟨_, rfl, rfl⟩, ⟨_, rfl, rfl⟩, rfl, rfl⟩

/-- Copying an empty Optional by the copy constructor: in a reachable state it
returns and yields an empty Optional, and the source is still empty. -/
theorem copyCtor_of_empty [Payload T] (s : State T) (this o : Nat)
    (hs : Reachable s) (hne : this ≠ o) (he : toBool s o = false) :
    ∃ s', copyCtor s this o = Except.ok s' ∧
      toBool s' this = false ∧ toBool s' o = false := by
  obtain ⟨s2, h2, hbo2, _, hbc, _, _⟩ := copyCtor_spec (wf_of_reachable hs) hne
  exact ⟨s2, h2, by rw [hbc]; exact he, by rw [hbo2]; exact he⟩

/-- C12 (P5, empty copy), where the code falls short of it. Object 5 is empty.
Copy-constructing object 3 from it yields an empty Optional and leaves the
source empty; copy-assigning it to object 2 yields no state, because the body
of `operator=` is ill-formed. -/
theorem empty_copy_assign_fails :
    toBool sampleVectors 5 = false ∧
    (∃ s', copyCtor sampleVectors 3 5 = Except.ok s' ∧
      toBool s' 3 = false ∧ toBool s' 5 = false) ∧
    copyAssign sampleVectors 2 5 = Except.error Fault.illFormed ∧
    (∀ s', copyAssign sampleVectors 2 5 ≠ Except.ok s') := by
  refine ⟨rfl, ?_, rfl, fun s' h => ?_⟩
  · exact copyCtor_of_empty sampleVectors 3 5
      (Reachable.step (Op.ctorMove 2 [7])
        (Reachable.step (Op.ctorCopy 1 [1, 2, 3]) Reachable.init rfl) rfl)
      (by decide) rfl
  · rw [copyAssign_ill_formed] at h
    cases h

/-- C13 (P6, self-assignment safety), where the code falls short of it. The
guard `this != &other` is never reached: an `Optional<string>` holding "hi"
assigned to itself, and an empty one assigned to itself, yield no state,
because the body of `operator=` is ill-formed. -/
theorem self_copyAssign_fails :
    deref sampleString 1 = Except.ok "hi" ∧
    copyAssign sampleString 1 1 = Except.error Fault.illFormed ∧
    toBool sampleString 2 = false ∧
    copyAssign sampleString 2 2 = Except.error Fault.illFormed ∧
    (∀ s', copyAssign sampleString 1 1 ≠ Except.ok s') := by
  refine ⟨rfl, rfl, rfl, rfl, fun s' h => ?_⟩
  rw [copyAssign_ill_formed] at h
  cases h

end Optional

section Resets

variable {T : Type}

theorem reset_empty (s : State T) (x p : Nat) (h0 : s.ptr x = 0) :
    unique_ptr.reset s x p = Except.ok (s.setPtr x p) := by
  simp only [unique_ptr.reset, h0, if_true]

theorem reset_present (s : State T) (x p : Nat) (w : T) (h0 : s.ptr x ≠ 0)
    (hw : s.heap (s.ptr x) = some w) :
    unique_ptr.reset s x p
      = Except.ok { s.setPtr x p with heap := update s.heap (s.ptr x) none,
                                      destroyed := s.destroyed ++ [w] } := by
  simp only [unique_ptr.reset, h0, if_false, State.free, heap_setPtr, hw, destroyed_setPtr]

theorem consume_null [Payload T] (s : State T) (x : Nat) (h : s.ptr x = 0) :
    Optional.consume s x = Except.error Fault.nullDeref := by
  simp only [Optional.consume, deref_null s x h]

end Resets

namespace Optional

variable {T : Type}

/-- C14, as stated, fails: on a default-constructed `Optional<unsigned>` the
accessor `operator*` and the consuming `operator*` do not end in the fatal path
of `ASSERT`; they dereference the null `_data`. -/
theorem empty_access_not_assert :
    toBool (ctor (State.init : State Nat) 1) 1 = false ∧
    deref (ctor (State.init : State Nat) 1) 1 = Except.error Fault.nullDeref ∧
    deref (ctor (State.init : State Nat) 1) 1 ≠ Except.error Fault.assertFailed ∧
    consume (ctor (State.init : State Nat) 1) 1 ≠ Except.error Fault.assertFailed := by
  refine ⟨rfl, rfl, ?_, ?_⟩
  · intro h
    have h' : (Except.error Fault.nullDeref : Except Fault Nat)
        = Except.error Fault.assertFailed := h
    cases h'
  · rw [consume_null (ctor (State.init : State Nat) 1) 1 rfl]
    intro h
    cases h

/-- C14, amended: an empty Optional accessed through `operator*` (as a
reference or as a read of the payload) or through the consuming `operator*`
is not checked by the code: no assertion is evaluated, so the access does not
end in the fatal path of `ASSERT`; it is a dereference of the null `_data`,
which is undefined behaviour. -/
theorem empty_access_null_deref [Payload T] (s : State T) (x : Nat)
    (h : toBool s x = false) :
    (derefRef s x = Except.error Fault.nullDeref ∧
      deref s x = Except.error Fault.nullDeref ∧
      consume s x = Except.error Fault.nullDeref) ∧
    (derefRef s x ≠ Except.error Fault.assertFailed ∧
      deref s x ≠ Except.error Fault.assertFailed ∧
      consume s x ≠ Except.error Fault.assertFailed) := by
  have h0 : s.ptr x = 0 := (toBool_eq_false_iff s x).1 h
  have h1 : derefRef s x = Except.error Fault.nullDeref := by simp [derefRef, h0]
  refine ⟨⟨h1, deref_null s x h0, consume_null s x h0⟩, ?_, ?_, ?_⟩
  · rw [h1]; intro he; cases he
  · rw [deref_null s x h0]; intro he; cases he
  · rw [consume_null s x h0]; intro he; cases he

/-- Witness for the amended C14: `Optional<string>` constructed from "hi" and
then emptied by a move into another object. -/
theorem empty_access_null_deref_witness :
    toBool (moveCtor sampleString 2 1) 1 = false ∧
    (derefRef (moveCtor sampleString 2 1) 1 = Except.error Fault.nullDeref ∧
      deref (moveCtor sampleString 2 1) 1 = Except.error Fault.nullDeref ∧
      consume (moveCtor sampleString 2 1) 1 = Except.error Fault.nullDeref) ∧
    (derefRef (moveCtor sampleString 2 1) 1 ≠ Except.error Fault.assertFailed ∧
      deref (moveCtor sampleString 2 1) 1 ≠ Except.error Fault.assertFailed ∧
      consume (moveCtor sampleString 2 1) 1 ≠ Except.error Fault.assertFailed) :=
  ⟨rfl, empty_access_null_deref (moveCtor sampleString 2 1) 1 rfl⟩

/-- C15 (invariant I3): in every reachable state, the boolean conversion of an
Optional is true exactly when its indirection holds one value, and when it is
present `operator->` yields the address of the value that `operator*`
yields. -/
theorem presence_iff_one_value [Payload T] (s : State T) (x : Nat) (hs : Reachable s) :
    (toBool s x = true ↔ ∃! v, s.heap (arrow s x) = some v) ∧
    (toBool s x = false ↔ s.heap (arrow s x) = none) ∧
    (toBool s x = true →
      derefRef s x = Except.ok (arrow s x) ∧
      ∃ v, deref s x = Except.ok v ∧ s.heap (arrow s x) = some v) := by
  have hw := wf_of_reachable hs
  rcases empty_or_present hw x with h0 | ⟨h0, v, hv⟩
  · have hb : toBool s x = false := (toBool_eq_false_iff s x).2 h0
    have hn : s.heap (arrow s x) = none := by
      show s.heap (s.ptr x) = none
      rw [h0]
      exact hw.null
    refine ⟨⟨fun h => ?_, fun ⟨v, hv, _⟩ => ?_⟩, ⟨fun _ => hn, fun _ => hb⟩, fun h => ?_⟩
    · rw [hb] at h; cases h
    · rw [hn] at hv; cases hv
    · rw [hb] at h; cases h
  · have hb : toBool s x = true := (toBool_eq_true_iff s x).2 h0
    have hv' : s.heap (arrow s x) = some v := hv
    refine ⟨⟨fun _ => ⟨v, hv', fun w hw' => ?_⟩, fun _ => hb⟩, ⟨fun h => ?_, fun h => ?_⟩,
      fun _ => ⟨by simp [derefRef, arrow, h0], v, deref_of_heap s x v h0 hv, hv'⟩⟩
    · rw [hv'] at hw'
      exact (Option.some.inj hw').symm
    · rw [hb] at h; cases h
    · rw [hv'] at h; cases h

/-- Witness for C15: the object that holds `[1, 2, 3]`. -/
theorem presence_iff_one_value_witness :
    (toBool sampleVectors 1 = true ↔ ∃! v, sampleVectors.heap (arrow sampleVectors 1) = some v) ∧
    (toBool sampleVectors 1 = false ↔ sampleVectors.heap (arrow sampleVectors 1) = none) ∧
    (toBool sampleVectors 1 = true →
      derefRef sampleVectors 1 = Except.ok (arrow sampleVectors 1) ∧
      ∃ v, deref sampleVectors 1 = Except.ok v ∧
        sampleVectors.heap (arrow sampleVectors 1) = some v) :=
  presence_iff_one_value sampleVectors 1
    (Reachable.step (Op.ctorMove 2 [7])
      (Reachable.step (Op.ctorCopy 1 [1, 2, 3]) Reachable.init rfl) rfl)

end Optional

namespace Optional

variable {T : Type}

/-- The copy constructor reads its source only: in a reachable state,
copy-constructing another object from `x` returns and leaves the presence and
the value of `x` as they were. -/
theorem copyCtor_source_unchanged [Payload T] (s : State T) (x target : Nat)
    (hs : Reachable s) (hne : target ≠ x) :
    ∃ s', copyCtor s target x = Except.ok s' ∧
      toBool s' x = toBool s x ∧ deref s' x = deref s x := by
  obtain ⟨s', h1, hb, hd, _⟩ := copyCtor_spec (wf_of_reachable hs) hne
  exact ⟨s', h1, hb, hd⟩

/-- C16, where the code falls short of it. Object 1 holds `[1, 2, 3]`. Used as
the source of a copy construction it keeps its presence and its value; used as
the source of a copy assignment to object 2 it yields no state to observe,
because the body of `operator=` is ill-formed. -/
theorem copy_source_assign_fails :
    (∃ s', copyCtor sampleVectors 3 1 = Except.ok s' ∧
      toBool s' 1 = toBool sampleVectors 1 ∧ deref s' 1 = deref sampleVectors 1) ∧
    copyAssign sampleVectors 2 1 = Except.error Fault.illFormed ∧
    (∀ s', copyAssign sampleVectors 2 1 ≠ Except.ok s') := by
  refine ⟨?_, rfl, fun s' h => ?_⟩
  · exact copyCtor_source_unchanged sampleVectors 1 3
      (Reachable.step (Op.ctorMove 2 [7])
        (Reachable.step (Op.ctorCopy 1 [1, 2, 3]) Reachable.init rfl) rfl)
      (by decide)
  · rw [copyAssign_ill_formed] at h
    cases h

/-- C17: moving from an empty Optional. In a reachable state where `a` is
empty, for every other object `b`: after move-constructing `b` from `a` both
are empty and nothing was destroyed; move-assigning `a` to `b` returns, both
are empty afterwards, an empty `b` destroys nothing, and a `b` that held `w`
has `w` destroyed once and gone from the heap. -/
theorem move_from_empty [Payload T] (s : State T) (a b : Nat)
    (hs : Reachable s) (hab : b ≠ a) (ha : toBool s a = false) :
    (toBool (moveCtor s b a) a = false ∧ toBool (moveCtor s b a) b = false ∧
      (moveCtor s b a).destroyed = s.destroyed) ∧
    (∃ s', moveAssign s b a = Except.ok s' ∧
      toBool s' a = false ∧ toBool s' b = false ∧
      (toBool s b = false → s'.destroyed = s.destroyed) ∧
      (∀ w, deref s b = Except.ok w →
        s'.destroyed = s.destroyed ++ [w] ∧ s'.heap (s.ptr b) = none)) := by
  have hw := wf_of_reachable hs
  have h0 : s.ptr a = 0 := (toBool_eq_false_iff s a).1 ha
  have hba : a ≠ b := Ne.symm hab
  have hpb : (s.setPtr a 0).ptr b = s.ptr b := ptr_setPtr_other s 0 hab
  have hma : moveAssign s b a = unique_ptr.reset (s.setPtr a 0) b 0 := by
    simp only [moveAssign, unique_ptr.release, h0]
  constructor
  · refine ⟨(toBool_eq_false_iff _ _).2 ?_, (toBool_eq_false_iff _ _).2 ?_, rfl⟩
    · simp only [moveCtor, unique_ptr.release]
      rw [ptr_setPtr_other _ _ hba, ptr_setPtr_same]
    · simp only [moveCtor, unique_ptr.release]
      rw [ptr_setPtr_same, h0]
  · rcases empty_or_present hw b with hb0 | ⟨hb0, w, hv⟩
    · refine ⟨(s.setPtr a 0).setPtr b 0, ?_, (toBool_eq_false_iff _ _).2 ?_,
        (toBool_eq_false_iff _ _).2 (ptr_setPtr_same _ _ _), fun _ => rfl, fun w' hd => ?_⟩
      · rw [hma]
        exact reset_empty _ b 0 (by rw [hpb]; exact hb0)
      · rw [ptr_setPtr_other _ _ hba, ptr_setPtr_same]
      · exact absurd hb0 ((deref_eq_ok_iff s b w').1 hd).1
    · have hb0' : (s.setPtr a 0).ptr b ≠ 0 := by rw [hpb]; exact hb0
      have hv' : (s.setPtr a 0).heap ((s.setPtr a 0).ptr b) = some w := by
        rw [hpb]; exact hv
      refine ⟨_, by rw [hma]; exact reset_present _ b 0 w hb0' hv',
        (toBool_eq_false_iff _ _).2 ?_, (toBool_eq_false_iff _ _).2 ?_, fun hb => ?_,
        fun w' hd => ⟨?_, ?_⟩⟩
      · show ((s.setPtr a 0).setPtr b 0).ptr a = 0
        rw [ptr_setPtr_other _ _ hba, ptr_setPtr_same]
      · show ((s.setPtr a 0).setPtr b 0).ptr b = 0
        exact ptr_setPtr_same _ _ _
      · exact absurd ((toBool_eq_false_iff s b).1 hb) hb0
      · have hww : w' = w := by
          have := ((deref_eq_ok_iff s b w').1 hd).2
          rw [hv] at this
          exact (Option.some.inj this).symm
        rw [hww]
        rfl
      · show update (s.setPtr a 0).heap ((s.setPtr a 0).ptr b) none (s.ptr b) = none
        rw [hpb]
        exact update_same _ _ _

/-- Witness for C17: the empty object 5 is moved into a new object 3 and into
object 2, which held `[7]`. -/
theorem move_from_empty_witness :
    deref sampleVectors 2 = Except.ok [7] ∧
    (toBool (moveCtor sampleVectors 3 5) 5 = false ∧
      toBool (moveCtor sampleVectors 3 5) 3 = false ∧
      (moveCtor sampleVectors 3 5).destroyed = sampleVectors.destroyed) ∧
    (∃ s', moveAssign sampleVectors 2 5 = Except.ok s' ∧
      toBool s' 5 = false ∧ toBool s' 2 = false ∧
      s'.destroyed = sampleVectors.destroyed ++ [[7]] ∧
      s'.heap (sampleVectors.ptr 2) = none) := by
  have hr : Reachable sampleVectors :=
    Reachable.step (Op.ctorMove 2 [7])
      (Reachable.step (Op.ctorCopy 1 [1, 2, 3]) Reachable.init rfl) rfl
  obtain ⟨s', h1, h2, h3, _, h5⟩ := (move_from_empty sampleVectors 5 2 hr (by decide) rfl).2
  exact ⟨rfl, (move_from_empty sampleVectors 5 3 hr (by decide) rfl).1,
    s', h1, h2, h3, (h5 [7] rfl).1, (h5 [7] rfl).2⟩

/-- C18: `operator->` is total. On an empty Optional it returns the null
pointer, where `operator*` has no object to refer to; on a present Optional it
returns a pointer that is not null. -/
theorem arrow_null_iff_empty (s : State T) (x : Nat) :
    (toBool s x = false →
      arrow s x = 0 ∧ derefRef s x = Except.error Fault.nullDeref) ∧
    (toBool s x = true → arrow s x ≠ 0 ∧ derefRef s x = Except.ok (arrow s x)) := by
  constructor
  · intro h
    have h0 : s.ptr x = 0 := (toBool_eq_false_iff s x).1 h
    exact ⟨h0, by simp [derefRef, h0]⟩
  · intro h
    have h0 : s.ptr x ≠ 0 := (toBool_eq_true_iff s x).1 h
    exact ⟨h0, by simp [derefRef, arrow, h0]⟩

/-- Witness for C18: a default-constructed `Optional<string>` and one
constructed from "hi". -/
theorem arrow_null_iff_empty_witness :
    (arrow (ctor sampleString 2) 2 = 0 ∧
      derefRef (ctor sampleString 2) 2 = Except.error Fault.nullDeref) ∧
    (arrow sampleString 1 ≠ 0 ∧ derefRef sampleString 1 = Except.ok (arrow sampleString 1)) :=
  ⟨(arrow_null_iff_empty (ctor sampleString 2) 2).1 rfl,
   (arrow_null_iff_empty sampleString 1).2 rfl⟩

end Optional

end OCC
